import Mathlib

/-!
Verification of the schedule-to-calendar core of `lalitha.py`.

The grid scanner, date resolver, weekday validator, event assembler and
recurrence builder are shallowly embedded below.  A pandas DataFrame is a
rectangular table of cells (text or NaN); `pd.Timestamp.now()` is threaded in
as the already-rendered string `now`; the unguarded `while` loop of the
recurrence builder is given explicit fuel, with `none` denoting that the loop
did not exit within the fuel.  Python exceptions (ValueError, KeyError,
AssertionError) become `Except Err` values whose payloads carry exactly the
data present in the corresponding Python error messages.
-/

set_option maxHeartbeats 1000000

namespace Lalitha

/-- A spreadsheet cell: blank (pandas NaN) or text. -/
inductive Cell where
  | blank : Cell
  | str : String → Cell
deriving DecidableEq

/-- Calendar date (proleptic Gregorian), as produced by parsing "MM/DD/YYYY". -/
structure Date where
  year : Nat
  month : Nat
  day : Nat
deriving DecidableEq

/-- Time of day, as produced by parsing "HH:MM AM/PM" (seconds always 0 there). -/
structure Time where
  hour : Nat
  minute : Nat
  second : Nat
deriving DecidableEq

/-- Gregorian leap-year test. -/
def isLeap (y : Nat) : Bool := (y % 4 == 0 && y % 100 != 0) || y % 400 == 0

/-- Length of month m of year y (0 for an invalid month index). -/
def daysInMonth (y : Nat) (m : Nat) : Nat :=
  match m with
  | 1 => 31
  | 2 => if isLeap y then 29 else 28
  | 3 => 31
  | 4 => 30
  | 5 => 31
  | 6 => 30
  | 7 => 31
  | 8 => 31
  | 9 => 30
  | 10 => 31
  | 11 => 30
  | 12 => 31
  | _ => 0

/-- Days elapsed in year y before month m. -/
def cumDays (y m : Nat) : Nat :=
  ((List.range (m - 1)).map (fun i => daysInMonth y (i + 1))).sum

/-- Number of leap years in 1..y. -/
def leaps (y : Nat) : Nat := y / 4 - y / 100 + y / 400

/-- Days since 0001-01-01, i.e. Python's date.toordinal() - 1. -/
def dayNumber (d : Date) : Nat :=
  365 * (d.year - 1) + leaps (d.year - 1) + cumDays d.year d.month + (d.day - 1)

/-- The full English weekday names, Monday first. -/
def weekNames : List String :=
  ["Monday", "Tuesday", "Wednesday", "Thursday", "Friday", "Saturday", "Sunday"]

/-- strftime("%A"): the full English weekday name; 0001-01-01 was a Monday. -/
def weekdayName (d : Date) : String := weekNames.getD (dayNumber d % 7) ""

/-- pd.DateOffset(days=1): advance to the next calendar day. -/
def nextDay (d : Date) : Date :=
  if d.day < daysInMonth d.year d.month then ⟨d.year, d.month, d.day + 1⟩
  else if d.month < 12 then ⟨d.year, d.month + 1, 1⟩
  else ⟨d.year + 1, 1, 1⟩

/-- A well-formed calendar date. -/
def validDate (d : Date) : Prop :=
  1 ≤ d.year ∧ 1 ≤ d.month ∧ d.month ≤ 12 ∧ 1 ≤ d.day ∧ d.day ≤ daysInMonth d.year d.month

instance (d : Date) : Decidable (validDate d) := by
  unfold validDate; infer_instance

/-- str.split(sep) on a character list. -/
def splitOnChar (sep : Char) : List Char → List (List Char)
  | [] => [[]]
  | c :: cs =>
    match splitOnChar sep cs with
    | [] => if c = sep then [[], []] else [[c]]
    | g :: gs => if c = sep then [] :: g :: gs else (c :: g) :: gs

/-- The numeric value of a non-empty all-digit character run. -/
def digitsToNat (cs : List Char) : Option Nat :=
  match cs with
  | [] => none
  | _ =>
    if cs.all Char.isDigit then some (cs.foldl (fun a c => 10 * a + (c.toNat - 48)) 0)
    else none

/-- pd.to_datetime(s, format="%m/%d/%Y").date(): strptime-style parse — month
1-2 digits in 1..12, day 1-2 digits valid for the month, year exactly 4
digits — with pandas' Timestamp range (1677-09-21..2262-04-11) approximated
by the whole-year bounds 1678..2261.  Every failure is a ValueError. -/
def parseDate (s : String) : Option Date :=
  match splitOnChar '/' s.data with
  | [ms, ds, ys] =>
    match digitsToNat ms, digitsToNat ds, digitsToNat ys with
    | some m, some d, some y =>
      if ms.length ≤ 2 ∧ ds.length ≤ 2 ∧ ys.length = 4 ∧
          1 ≤ m ∧ m ≤ 12 ∧ 1 ≤ d ∧ d ≤ daysInMonth y m ∧ 1678 ≤ y ∧ y ≤ 2261
      then some ⟨y, m, d⟩ else none
    | _, _, _ => none
  | _ => none

/-- pd.to_datetime(s, format="%I:%M %p").time(): 12-hour clock parse (hour 1-12,
minute 0-59, AM/PM marker also accepted lowercase); seconds are 0. -/
def parseTime (s : String) : Option Time :=
  match splitOnChar ' ' s.data with
  | [hm, ap] =>
    match splitOnChar ':' hm with
    | [hs, ms] =>
      match digitsToNat hs, digitsToNat ms with
      | some h, some mi =>
        if hs.length ≤ 2 ∧ ms.length ≤ 2 ∧ 1 ≤ h ∧ h ≤ 12 ∧ mi ≤ 59 then
          if ap = ['A', 'M'] ∨ ap = ['a', 'm'] then some ⟨h % 12, mi, 0⟩
          else if ap = ['P', 'M'] ∨ ap = ['p', 'm'] then some ⟨h % 12 + 12, mi, 0⟩
          else none
        else none
      | _, _ => none
    | _ => none
  | _ => none

/-- %02d (every strftime field below 100 in this program). -/
def pad2 (n : Nat) : String := ⟨[Nat.digitChar (n / 10), Nat.digitChar (n % 10)]⟩

/-- %Y for the four-digit years guaranteed by parseDate's bounds. -/
def pad4 (n : Nat) : String :=
  ⟨[Nat.digitChar (n / 1000), Nat.digitChar (n / 100 % 10),
    Nat.digitChar (n / 10 % 10), Nat.digitChar (n % 10)]⟩

/-- strftime("%Y-%m-%d"). -/
def fmtDate (d : Date) : String := pad4 d.year ++ "-" ++ pad2 d.month ++ "-" ++ pad2 d.day

/-- strftime("%H:%M:%S"). -/
def fmtTime (t : Time) : String := pad2 t.hour ++ ":" ++ pad2 t.minute ++ ":" ++ pad2 t.second

/-- datetime.combine(date, time).strftime("%Y-%m-%dT%H:%M:%S") (lines 42-43). -/
def fmtDateTime (d : Date) (t : Time) : String := fmtDate d ++ "T" ++ fmtTime t

/-- strftime("%Y%m%d") (line 214). -/
def fmtCompact (d : Date) : String := pad4 d.year ++ pad2 d.month ++ pad2 d.day

/-- x[:2].upper() for the ASCII day names (line 224). -/
def take2upper (x : String) : String := ⟨(x.data.take 2).map Char.toUpper⟩

/-- ",".join(xs) (line 225). -/
def joinComma : List String → String
  | [] => ""
  | [x] => x
  | x :: y :: xs => x ++ "," ++ joinComma (y :: xs)

/-- cfg["role_info"][role]: title, location and the "HH:MM AM/PM" times. -/
structure RoleInfo where
  title : String
  location : String
  start_time : String
  end_time : String
deriving DecidableEq

/-- One element of cfg["recurring_schedules"] (lines 186-194). -/
structure RecEntry where
  title : String
  location : String
  days : List String
  start_time : String
  end_time : String
  start_date : String
  end_date : String
deriving DecidableEq

/-- The parts of cfg the core reads. -/
structure Config where
  aliases : List String
  role_info : List (String × RoleInfo)
  recurring_schedules : List RecEntry
deriving DecidableEq

/-- The event dict yielded by the core (lines 45-51 and 227-234). -/
structure Event where
  title : String
  location : String
  description : String
  start_datetime : String
  end_datetime : String
  recurrence : Option String
deriving DecidableEq

/-- The Python exceptions the core can raise, with the data their messages
carry: ValueError at line 85 (match coordinates), KeyError from the label
lookup at line 89 (column and offending label), AssertionError at lines 90-92
(match coordinates), KeyError at line 27 (the missing role key), and
ValueError from the strict to_datetime parses (the unparseable string). -/
inductive Err where
  | dateNotFound : Nat → Nat → Err
  | rowKeyError : Nat → Int → Err
  | dayMismatch : Nat → Nat → Err
  | unknownRole : String → Err
  | badTime : String → Err
  | badDate : String → Err
deriving DecidableEq

/-- One sheet: a rectangular table of cells, row-major. -/
abbrev Sheet := List (List Cell)

/-- Positional cell read (out-of-table reads only ever model NaN padding). -/
def cellAt (sheet : Sheet) (r c : Nat) : Cell := (sheet.getD r []).getD c Cell.blank

/-- df[col][label] (line 89): label-based row lookup on a RangeIndex; a label
outside 0..nrows-1 — notably -1 — raises KeyError. -/
def cellAtLabel (sheet : Sheet) (c : Nat) (label : Int) : Except Err Cell :=
  if 0 ≤ label ∧ label < (sheet.length : Int) then Except.ok (cellAt sheet label.toNat c)
  else Except.error (Err.rowKeyError c label)

/-- One probe of the upward scan (lines 74-83): a NaN cell is skipped, a text
cell is skipped unless it parses as "MM/DD/YYYY". -/
def tryRow (get : Nat → Cell) (r : Nat) : Option Date :=
  match get r with
  | Cell.blank => none
  | Cell.str s => parseDate s

/-- The upward scan over rows r, r-1, ..., 0 stopping at the first parse. -/
def scanUp (get : Nat → Cell) : Nat → Option (Date × Nat)
  | 0 => (tryRow get 0).map (fun d => (d, 0))
  | r + 1 =>
    match tryRow get (r + 1) with
    | some d => some (d, r + 1)
    | none => scanUp get r

/-- Lines 73-85: the for-else loop from row_i-1 down to 0; returns the first
parsed date and its row, else ValueError carrying the match coordinates. -/
def resolveDate (get : Nat → Cell) (row_i col_i : Nat) : Except Err (Date × Nat) :=
  match row_i with
  | 0 => Except.error (Err.dateNotFound 0 col_i)
  | r + 1 =>
    match scanUp get r with
    | some x => Except.ok x
    | none => Except.error (Err.dateNotFound (r + 1) col_i)

/-- A cell rendered as a Python dict key (NaN prints as nan). -/
def roleRepr : Cell → String
  | Cell.blank => "nan"
  | Cell.str s => s

/-- cfg["role_info"][role] (line 27): lookup, KeyError when absent. -/
def lookupRole (cfg : Config) : Cell → Option RoleInfo
  | Cell.blank => none
  | Cell.str s => cfg.role_info.lookup s

/-- get_event_from_entry (lines 24-51); `now` is pd.Timestamp.now() already
rendered with "%m/%d/%Y at %I:%M %p". -/
def get_event_from_entry (cfg : Config) (now : String) (date : Date) (role : Cell) :
    Except Err Event :=
  match lookupRole cfg role with
  | none => Except.error (Err.unknownRole (roleRepr role))
  | some ri =>
    match parseTime ri.start_time with
    | none => Except.error (Err.badTime ri.start_time)
    | some st =>
      match parseTime ri.end_time with
      | none => Except.error (Err.badTime ri.end_time)
      | some en =>
        Except.ok
          { title := ri.title
            location := ri.location
            description := "Last updated by Lalitha on " ++ now ++ "\n"
            start_datetime := fmtDateTime date st
            end_datetime := fmtDateTime date en
            recurrence := none }

/-- The assert's comparison date.strftime("%A") == day_of_week (line 91): a
NaN cell compares unequal to every string. -/
def cellEqStr (c : Cell) (w : String) : Bool :=
  match c with
  | Cell.blank => false
  | Cell.str s => s == w

/-- df.isin(cfg["aliases"]).stack() filtered to True (lines 59-62): the matched
coordinates of one sheet, in row-major order. -/
def matchesOf (aliases : List String) (sheet : Sheet) : List (Nat × Nat) :=
  sheet.enum.flatMap (fun ri =>
    ri.2.enum.filterMap (fun ci =>
      match ci.2 with
      | Cell.blank => none
      | Cell.str s => if aliases.contains s then some (ri.1, ci.1) else none))

/-- The loop body for one matched cell (lines 64-95): read the role from
column 0, resolve the date upward, check the weekday label one row above the
date cell, then assemble the event. -/
def processMatch (cfg : Config) (now : String) (sheet : Sheet) (rc : Nat × Nat) :
    Except Err Event :=
  match resolveDate (fun r => cellAt sheet r rc.2) rc.1 rc.2 with
  | Except.error e => Except.error e
  | Except.ok (date, date_row) =>
    match cellAtLabel sheet rc.2 ((date_row : Int) - 1) with
    | Except.error e => Except.error e
    | Except.ok dow =>
      if cellEqStr dow (weekdayName date) then
        get_event_from_entry cfg now date (cellAt sheet rc.1 0)
      else Except.error (Err.dayMismatch rc.1 rc.2)

/-- The matched cells of one sheet processed in order; the first exception
aborts the run. -/
def runMatches (cfg : Config) (now : String) (sheet : Sheet) :
    List (Nat × Nat) → Except Err (List Event)
  | [] => Except.ok []
  | rc :: rest =>
    match processMatch cfg now sheet rc with
    | Except.error e => Except.error e
    | Except.ok ev =>
      match runMatches cfg now sheet rest with
      | Except.error e => Except.error e
      | Except.ok evs => Except.ok (ev :: evs)

/-- get_events_from_df (lines 54-95): the generator over all sheets,
materialized in yield order. -/
def get_events_from_df (cfg : Config) (now : String) :
    List (String × Sheet) → Except Err (List Event)
  | [] => Except.ok []
  | (_, sheet) :: rest =>
    match runMatches cfg now sheet (matchesOf cfg.aliases sheet) with
    | Except.error e => Except.error e
    | Except.ok evs =>
      match get_events_from_df cfg now rest with
      | Except.error e => Except.error e
      | Except.ok more => Except.ok (evs ++ more)

/-- Lines 208-211: the while-loop advancing first_date one day at a time until
its weekday name is a member of days.  The Python loop is unguarded, so it is
given explicit fuel (the number of advances still allowed); none means the
loop has not exited within the fuel. -/
def findFirstDate (days : List String) : Nat → Date → Option Date
  | 0, d => if days.contains (weekdayName d) then some d else none
  | fuel + 1, d =>
    if days.contains (weekdayName d) then some d
    else findFirstDate days fuel (nextDay d)

/-- The body of get_recurrence_events for one entry (lines 184-234), in source
evaluation order: parse the times, parse start_date, run the first-date loop,
parse end_date, then build the event and its RRULE string.  none models the
loop not exiting within the fuel. -/
def processEntry (now : String) (fuel : Nat) (e : RecEntry) : Option (Except Err Event) :=
  match parseTime e.start_time with
  | none => some (Except.error (Err.badTime e.start_time))
  | some st =>
    match parseTime e.end_time with
    | none => some (Except.error (Err.badTime e.end_time))
    | some en =>
      match parseDate e.start_date with
      | none => some (Except.error (Err.badDate e.start_date))
      | some sd =>
        match findFirstDate e.days fuel sd with
        | none => none
        | some date =>
          match parseDate e.end_date with
          | none => some (Except.error (Err.badDate e.end_date))
          | some ed =>
            some (Except.ok
              { title := e.title
                location := e.location
                description := "Last updated by Lalitha on " ++ now ++ "\n"
                start_datetime := fmtDateTime date st
                end_datetime := fmtDateTime date en
                recurrence := some ("RRULE:FREQ=WEEKLY;BYDAY=" ++
                  joinComma (e.days.map take2upper) ++ ";UNTIL=" ++ fmtCompact ed) })

/-- get_recurrence_events (lines 183-234), materialized in yield order. -/
def get_recurrence_events (now : String) (fuel : Nat) :
    List RecEntry → Option (Except Err (List Event))
  | [] => some (Except.ok [])
  | e :: rest =>
    match processEntry now fuel e with
    | none => none
    | some (Except.error er) => some (Except.error er)
    | some (Except.ok ev) =>
      match get_recurrence_events now fuel rest with
      | none => none
      | some (Except.error er) => some (Except.error er)
      | some (Except.ok evs) => some (Except.ok (ev :: evs))

/-- main (lines 237-259): grid-derived events first, then recurrence-derived
events; the first exception aborts before anything is created. -/
def main_events (cfg : Config) (now : String) (grid : List (String × Sheet)) (fuel : Nat) :
    Option (Except Err (List Event)) :=
  match get_events_from_df cfg now grid with
  | Except.error e => some (Except.error e)
  | Except.ok evs1 =>
    match get_recurrence_events now fuel cfg.recurring_schedules with
    | none => none
    | some (Except.error e) => some (Except.error e)
    | some (Except.ok evs2) => some (Except.ok (evs1 ++ evs2))

instance {ε α : Type} [DecidableEq ε] [DecidableEq α] : DecidableEq (Except ε α) :=
  fun a b =>
    match a, b with
    | Except.ok x, Except.ok y =>
      if h : x = y then isTrue (by rw [h]) else isFalse (by intro hc; cases hc; exact h rfl)
    | Except.error x, Except.error y =>
      if h : x = y then isTrue (by rw [h]) else isFalse (by intro hc; cases hc; exact h rfl)
    | Except.ok _, Except.error _ => isFalse (by intro hc; cases hc)
    | Except.error _, Except.ok _ => isFalse (by intro hc; cases hc)

/-! ### Calendar arithmetic -/

theorem daysInMonth_pos (y m : Nat) (h1 : 1 ≤ m) (h2 : m ≤ 12) : 1 ≤ daysInMonth y m := by
  interval_cases m <;> unfold daysInMonth <;> first
    | omega
    | (cases isLeap y <;> simp)

theorem leaps_succ (y : Nat) : leaps (y + 1) = leaps y + (if isLeap (y + 1) then 1 else 0) := by
  unfold leaps isLeap
  split_ifs with h
  · simp only [Bool.or_eq_true, Bool.and_eq_true, beq_iff_eq, bne_iff_ne, ne_eq] at h
    omega
  · simp only [Bool.or_eq_true, Bool.and_eq_true, beq_iff_eq, bne_iff_ne, ne_eq, not_or,
      not_and, not_not] at h
    omega

theorem cumDays_succ (y m : Nat) (h : 1 ≤ m) :
    cumDays y (m + 1) = cumDays y m + daysInMonth y m := by
  obtain ⟨k, rfl⟩ : ∃ k, m = k + 1 := ⟨m - 1, by omega⟩
  unfold cumDays
  simp [List.range_succ]

theorem cumDays_twelve (y : Nat) : cumDays y 12 = 334 + (if isLeap y then 1 else 0) := by
  have hr : List.range 11 = [0, 1, 2, 3, 4, 5, 6, 7, 8, 9, 10] := rfl
  unfold cumDays
  rw [show (12 - 1 : Nat) = 11 from rfl, hr]
  cases h : isLeap y <;> simp [daysInMonth, h]

theorem dayNumber_nextDay (d : Date) (h : validDate d) :
    dayNumber (nextDay d) = dayNumber d + 1 := by
  obtain ⟨hy, hm1, hm2, hd1, hd2⟩ := h
  unfold nextDay
  split_ifs with h1 h2
  · show dayNumber ⟨d.year, d.month, d.day + 1⟩ = dayNumber d + 1
    unfold dayNumber
    dsimp only
    omega
  · have hc := cumDays_succ d.year d.month hm1
    have hp := daysInMonth_pos d.year d.month hm1 hm2
    show dayNumber ⟨d.year, d.month + 1, 1⟩ = dayNumber d + 1
    unfold dayNumber
    dsimp only
    omega
  · have hm : d.month = 12 := by omega
    have hd : d.day = 31 := by
      have h31 : daysInMonth d.year d.month = 31 := by rw [hm]; rfl
      omega
    have hc12 := cumDays_twelve d.year
    have hls := leaps_succ (d.year - 1)
    have hy1 : d.year - 1 + 1 = d.year := by omega
    rw [hy1] at hls
    have hc1 : cumDays (d.year + 1) 1 = 0 := rfl
    show dayNumber ⟨d.year + 1, 1, 1⟩ = dayNumber d + 1
    unfold dayNumber
    dsimp only
    rw [hm, hd]
    simp only [Nat.add_sub_cancel]
    cases hif : isLeap d.year <;> rw [hif] at hc12 hls <;> simp at hc12 hls <;> omega

theorem validDate_nextDay (d : Date) (h : validDate d) : validDate (nextDay d) := by
  obtain ⟨hy, hm1, hm2, hd1, hd2⟩ := h
  unfold nextDay
  split_ifs with h1 h2
  · refine ⟨hy, hm1, hm2, ?_, ?_⟩
    · show 1 ≤ d.day + 1
      omega
    · show d.day + 1 ≤ daysInMonth d.year d.month
      omega
  · refine ⟨hy, ?_, ?_, ?_, ?_⟩
    · show 1 ≤ d.month + 1
      omega
    · show d.month + 1 ≤ 12
      omega
    · show 1 ≤ (1 : Nat)
      omega
    · show 1 ≤ daysInMonth d.year (d.month + 1)
      exact daysInMonth_pos _ _ (by omega) (by omega)
  · refine ⟨?_, ?_, ?_, ?_, ?_⟩
    · show 1 ≤ d.year + 1
      omega
    · show 1 ≤ (1 : Nat)
      omega
    · show (1 : Nat) ≤ 12
      omega
    · show 1 ≤ (1 : Nat)
      omega
    · show (1 : Nat) ≤ 31
      omega

theorem dayNumber_iterate (d : Date) (h : validDate d) (k : Nat) :
    validDate (nextDay^[k] d) ∧ dayNumber (nextDay^[k] d) = dayNumber d + k := by
  induction k with
  | zero => simpa using h
  | succ k ih =>
    rw [Function.iterate_succ_apply']
    obtain ⟨hv, hn⟩ := ih
    refine ⟨validDate_nextDay _ hv, ?_⟩
    rw [dayNumber_nextDay _ hv, hn]
    omega

theorem weekdayName_iterate_eq (d : Date) (h : validDate d) (i : Nat) (hi : i < 7) :
    ∃ k ≤ 6, weekdayName (nextDay^[k] d) = weekNames.getD i "" := by
  refine ⟨(7 + i - dayNumber d % 7) % 7, by omega, ?_⟩
  have hk := (dayNumber_iterate d h ((7 + i - dayNumber d % 7) % 7)).2
  unfold weekdayName
  rw [hk]
  congr 1
  omega

theorem findFirstDate_isSome_of_exists (days : List String) (fuel : Nat) (d : Date)
    (h : ∃ k ≤ fuel, weekdayName (nextDay^[k] d) ∈ days) :
    (findFirstDate days fuel d).isSome = true := by
  induction fuel generalizing d with
  | zero =>
    obtain ⟨k, hk, hw⟩ := h
    have hk0 : k = 0 := by omega
    subst hk0
    simp only [Function.iterate_zero, id] at hw
    simp [findFirstDate, hw]
  | succ f ih =>
    by_cases hd : weekdayName d ∈ days
    · simp [findFirstDate, hd]
    · obtain ⟨k, hk, hw⟩ := h
      match k, hk with
      | 0, _ =>
        simp only [Function.iterate_zero, id] at hw
        exact absurd hw hd
      | j + 1, hk =>
        rw [Function.iterate_succ_apply] at hw
        have hih := ih (nextDay d) ⟨j, by omega, hw⟩
        simpa [findFirstDate, hd] using hih

theorem findFirstDate_nil (fuel : Nat) (d : Date) : findFirstDate [] fuel d = none := by
  induction fuel generalizing d with
  | zero => rfl
  | succ f ih => simpa [findFirstDate] using ih (nextDay d)

/-! ### DateResolver: the upward-scan policy -/

/-- Modelled from the spec's words, for comparison with resolveDate: visit the
rows above the match from row_i - 1 down to row 0, drop blank cells and
non-blank cells that do not parse as "MM/DD/YYYY", and take the first parsed
date together with its row index. -/
def specDateScan (get : Nat → Cell) (row_i : Nat) : Option (Date × Nat) :=
  ((List.range row_i).reverse.filterMap (fun j =>
    match get j with
    | Cell.blank => none
    | Cell.str s => (parseDate s).map (fun d => (d, j)))).head?

theorem scanUp_eq_specDateScan (get : Nat → Cell) (r : Nat) :
    scanUp get r = specDateScan get (r + 1) := by
  induction r with
  | zero =>
    unfold scanUp specDateScan tryRow
    cases h : get 0 with
    | blank => simp [h, List.range_succ]
    | str s => cases hp : parseDate s <;> simp [h, hp, List.range_succ]
  | succ r ih =>
    have hrange : (List.range (r + 1 + 1)).reverse = (r + 1) :: (List.range (r + 1)).reverse := by
      rw [List.range_succ]
      simp
    unfold specDateScan
    rw [hrange]
    show scanUp get (r + 1) = _
    unfold scanUp tryRow
    cases h : get (r + 1) with
    | blank => simpa [h, specDateScan] using ih
    | str s =>
      cases hp : parseDate s with
      | none => simpa [h, hp, specDateScan] using ih
      | some d => simp [h, hp]

theorem resolveDate_eq_specDateScan (get : Nat → Cell) (row_i col_i : Nat) :
    resolveDate get row_i col_i =
      (match specDateScan get row_i with
       | some x => Except.ok x
       | none => Except.error (Err.dateNotFound row_i col_i)) := by
  match row_i with
  | 0 => rfl
  | r + 1 =>
    simp only [resolveDate]
    rw [scanUp_eq_specDateScan]

/-! ### Lexicographic order on the formatted datetime strings -/

theorem string_data_append (s t : String) : (s ++ t).data = s.data ++ t.data := rfl

theorem listLex_append_left (p : List Char) {a b : List Char} (h : List.Lex (· < ·) a b) :
    List.Lex (· < ·) (p ++ a) (p ++ b) := by
  induction p with
  | nil => simpa using h
  | cons c cs ih => exact List.Lex.cons ih

theorem listLex_append_of_lt {xs ys : List Char} (u v : List Char)
    (hlen : xs.length = ys.length) (h : List.Lex (· < ·) xs ys) :
    List.Lex (· < ·) (xs ++ u) (ys ++ v) := by
  induction h with
  | nil => simp at hlen
  | @rel a as b bs hab => exact List.Lex.rel hab
  | @cons a as bs hlt ih => exact List.Lex.cons (ih (by simpa using hlen))

theorem digitChar_lt {a b : Nat} (ha : a < 10) (hb : b < 10) (h : a < b) :
    Nat.digitChar a < Nat.digitChar b := by
  interval_cases a <;> interval_cases b <;> first
    | omega
    | decide

theorem pad2_data_lt {a b : Nat} (ha : a < 100) (hb : b < 100) (h : a < b) :
    List.Lex (· < ·) (pad2 a).data (pad2 b).data := by
  show List.Lex (· < ·) [Nat.digitChar (a / 10), Nat.digitChar (a % 10)]
    [Nat.digitChar (b / 10), Nat.digitChar (b % 10)]
  by_cases h10 : a / 10 < b / 10
  · exact List.Lex.rel (digitChar_lt (by omega) (by omega) h10)
  · have he : a / 10 = b / 10 := by omega
    rw [he]
    exact List.Lex.cons (List.Lex.rel (digitChar_lt (by omega) (by omega) (by omega)))

theorem fmtDateTime_data (d : Date) (t : Time) :
    (fmtDateTime d t).data =
      (fmtDate d).data ++
        'T' :: ((pad2 t.hour).data ++ ':' :: ((pad2 t.minute).data ++ ':' :: (pad2 t.second).data)) := by
  simp [fmtDateTime, fmtTime, string_data_append]

/-- The time-of-day order on the formatted strings: with the same date,
string comparison follows (hour, minute) lexicographically. -/
theorem fmtDateTime_lt (d : Date) (t1 t2 : Time)
    (hb1 : t1.hour < 24) (hb2 : t2.hour < 24) (hbm1 : t1.minute < 60) (hbm2 : t2.minute < 60)
    (h : t1.hour * 60 + t1.minute < t2.hour * 60 + t2.minute) :
    fmtDateTime d t1 < fmtDateTime d t2 := by
  rw [String.lt_iff_toList_lt]
  show List.Lex (· < ·) (fmtDateTime d t1).data (fmtDateTime d t2).data
  rw [fmtDateTime_data, fmtDateTime_data]
  apply listLex_append_left
  apply List.Lex.cons
  rcases Nat.lt_or_ge t1.hour t2.hour with hh | hh
  · exact listLex_append_of_lt _ _ rfl (pad2_data_lt (by omega) (by omega) hh)
  · have he : t1.hour = t2.hour := by omega
    have hm : t1.minute < t2.minute := by omega
    rw [he]
    apply listLex_append_left
    apply List.Lex.cons
    exact listLex_append_of_lt _ _ rfl (pad2_data_lt (by omega) (by omega) hm)

/-! ### Shapes of successful results -/

theorem parseTime_bounds {s : String} {t : Time} (h : parseTime s = some t) :
    t.hour < 24 ∧ t.minute < 60 ∧ t.second = 0 := by
  unfold parseTime at h
  repeat' split at h
  all_goals cases h
  all_goals exact ⟨by dsimp only; omega, by dsimp only; omega, rfl⟩

theorem parseDate_valid {s : String} {d : Date} (h : parseDate s = some d) : validDate d := by
  unfold parseDate at h
  repeat' split at h
  all_goals cases h
  exact ⟨by dsimp only; omega, by dsimp only; omega, by dsimp only; omega,
    by dsimp only; omega, by dsimp only; omega⟩

theorem lookup_mem {β : Type} {l : List (String × β)} {k : String} {v : β}
    (h : l.lookup k = some v) : (k, v) ∈ l := by
  rw [List.lookup_eq_some_iff] at h
  obtain ⟨l₁, l₂, rfl, -⟩ := h
  simp

/-- A successful event assembly records exactly a role found in the config and
the two parsed times, combined with the resolved date. -/
theorem get_event_from_entry_ok {cfg : Config} {now : String} {date : Date} {role : Cell}
    {ev : Event} (h : get_event_from_entry cfg now date role = Except.ok ev) :
    ∃ s ri st en, cfg.role_info.lookup s = some ri ∧
      parseTime ri.start_time = some st ∧ parseTime ri.end_time = some en ∧
      ev = { title := ri.title, location := ri.location,
             description := "Last updated by Lalitha on " ++ now ++ "\n",
             start_datetime := fmtDateTime date st,
             end_datetime := fmtDateTime date en, recurrence := none } := by
  cases role with
  | blank => exact absurd h (by simp [get_event_from_entry, lookupRole])
  | str s =>
    unfold get_event_from_entry lookupRole at h
    repeat' split at h
    all_goals cases h
    exact ⟨s, _, _, _, by assumption, by assumption, by assumption, rfl⟩

/-- A successful match comes out of get_event_from_entry applied to the role
read from column 0 of the matching row. -/
theorem processMatch_ok {cfg : Config} {now : String} {sheet : Sheet} {rc : Nat × Nat}
    {ev : Event} (h : processMatch cfg now sheet rc = Except.ok ev) :
    ∃ date, get_event_from_entry cfg now date (cellAt sheet rc.1 0) = Except.ok ev := by
  unfold processMatch at h
  repeat' split at h
  all_goals first
    | cases h
    | exact ⟨_, h⟩

theorem runMatches_forall2 {cfg : Config} {now : String} {sheet : Sheet}
    {ms : List (Nat × Nat)} {evs : List Event}
    (h : runMatches cfg now sheet ms = Except.ok evs) :
    List.Forall₂ (fun rc e => processMatch cfg now sheet rc = Except.ok e) ms evs := by
  induction ms generalizing evs with
  | nil =>
    unfold runMatches at h
    injection h with h
    subst h
    exact List.Forall₂.nil
  | cons rc rest ih =>
    unfold runMatches at h
    split at h
    · cases h
    · rename_i ev hpm
      split at h
      · cases h
      · rename_i evs' hrun
        injection h with h
        subst h
        exact List.Forall₂.cons hpm (ih hrun)

/-- Every sheet's matches, each tagged with its sheet, in the order the scan
visits them. -/
def allMatches (cfg : Config) (grid : List (String × Sheet)) : List (Sheet × (Nat × Nat)) :=
  grid.flatMap (fun p => (matchesOf cfg.aliases p.2).map (fun rc => (p.2, rc)))

theorem get_events_from_df_forall2 {cfg : Config} {now : String}
    {grid : List (String × Sheet)} {evs : List Event}
    (h : get_events_from_df cfg now grid = Except.ok evs) :
    List.Forall₂ (fun q e => processMatch cfg now q.1 q.2 = Except.ok e)
      (allMatches cfg grid) evs := by
  induction grid generalizing evs with
  | nil =>
    unfold get_events_from_df at h
    injection h with h
    subst h
    exact List.Forall₂.nil
  | cons p rest ih =>
    obtain ⟨nm, sheet⟩ := p
    unfold get_events_from_df at h
    split at h
    · cases h
    · rename_i evs1 hrun
      split at h
      · cases h
      · rename_i more hrest
        injection h with h
        subst h
        have h1 : List.Forall₂ (fun q e => processMatch cfg now q.1 q.2 = Except.ok e)
            ((matchesOf cfg.aliases sheet).map (fun rc => (sheet, rc))) evs1 := by
          rw [List.forall₂_map_left_iff]
          exact runMatches_forall2 hrun
        have h2 := ih hrest
        show List.Forall₂ _ (allMatches cfg ((nm, sheet) :: rest)) _
        unfold allMatches
        rw [List.flatMap_cons]
        exact List.rel_append h1 h2

theorem get_recurrence_events_forall2 {now : String} {fuel : Nat}
    {entries : List RecEntry} {evs : List Event}
    (h : get_recurrence_events now fuel entries = some (Except.ok evs)) :
    List.Forall₂ (fun en e => processEntry now fuel en = some (Except.ok e)) entries evs := by
  induction entries generalizing evs with
  | nil =>
    unfold get_recurrence_events at h
    injection h with h
    injection h with h
    subst h
    exact List.Forall₂.nil
  | cons e rest ih =>
    unfold get_recurrence_events at h
    split at h
    · cases h
    · cases h
    · rename_i ev hpe
      split at h
      · cases h
      · cases h
      · rename_i evs' hrest
        injection h with h
        injection h with h
        subst h
        exact List.Forall₂.cons hpe (ih hrest)

theorem main_events_ok {cfg : Config} {now : String} {grid : List (String × Sheet)}
    {fuel : Nat} {out : List Event}
    (h : main_events cfg now grid fuel = some (Except.ok out)) :
    ∃ gevs revs, get_events_from_df cfg now grid = Except.ok gevs ∧
      get_recurrence_events now fuel cfg.recurring_schedules = some (Except.ok revs) ∧
      out = gevs ++ revs := by
  unfold main_events at h
  split at h
  · cases h
  · rename_i gevs hg
    split at h
    · cases h
    · cases h
    · rename_i revs hr
      injection h with h
      injection h with h
      subst h
      exact ⟨gevs, revs, hg, hr, rfl⟩

/-- A successful recurrence entry records the parsed times, the first date the
loop found, and the parsed end date, which fully determine the event. -/
theorem processEntry_ok {now : String} {fuel : Nat} {e : RecEntry} {ev : Event}
    (h : processEntry now fuel e = some (Except.ok ev)) :
    ∃ st en sd date ed, parseTime e.start_time = some st ∧ parseTime e.end_time = some en ∧
      parseDate e.start_date = some sd ∧ findFirstDate e.days fuel sd = some date ∧
      parseDate e.end_date = some ed ∧
      ev = { title := e.title, location := e.location,
             description := "Last updated by Lalitha on " ++ now ++ "\n",
             start_datetime := fmtDateTime date st,
             end_datetime := fmtDateTime date en,
             recurrence := some ("RRULE:FREQ=WEEKLY;BYDAY=" ++
               joinComma (e.days.map take2upper) ++ ";UNTIL=" ++ fmtCompact ed) } := by
  unfold processEntry at h
  repeat' split at h
  all_goals cases h
  exact ⟨_, _, _, _, _, by assumption, by assumption, by assumption, by assumption,
    by assumption, rfl⟩

/-! ### The date component of the formatted strings -/

theorem fmtDate_data_length (d : Date) : (fmtDate d).data.length = 10 := rfl

theorem fmtDateTime_data_take (d : Date) (t : Time) :
    (fmtDateTime d t).data.take 10 = (fmtDate d).data := by
  rw [fmtDateTime_data]
  exact List.take_left' (fmtDate_data_length d)

/-! ### Row-major order of the matched cells -/

/-- Row-major, then column-major order on grid coordinates. -/
def rowMajorLt (p q : Nat × Nat) : Prop := p.1 < q.1 ∨ (p.1 = q.1 ∧ p.2 < q.2)

theorem enumFrom_pairwise_fst {α : Type} (l : List α) (n : Nat) :
    (l.enumFrom n).Pairwise (fun a b => a.1 < b.1) := by
  induction l generalizing n with
  | nil => exact List.Pairwise.nil
  | cons x xs ih =>
    refine List.Pairwise.cons ?_ (ih (n + 1))
    intro b hb
    have hle := List.le_fst_of_mem_enumFrom hb
    show n < b.1
    omega

theorem matchesOf_cell_eq {aliases : List String} {r : Nat} {ci : Nat × Cell} {x : Nat × Nat}
    (hx : x ∈ (match ci.2 with
       | Cell.blank => none
       | Cell.str s => if aliases.contains s then some (r, ci.1) else none : Option (Nat × Nat))) :
    x = (r, ci.1) := by
  cases h : ci.2 with
  | blank => rw [h] at hx; simp at hx
  | str s =>
    rw [h] at hx
    by_cases hc : s ∈ aliases
    · simp [hc] at hx
      exact hx.symm
    · simp [hc] at hx

/-- The matched coordinates of a sheet come out sorted in row-major, then
column-major order. -/
theorem matchesOf_pairwise (aliases : List String) (sheet : Sheet) :
    (matchesOf aliases sheet).Pairwise rowMajorLt := by
  unfold matchesOf
  rw [List.pairwise_flatMap]
  constructor
  · intro ri _
    rw [List.pairwise_filterMap]
    refine (enumFrom_pairwise_fst ri.2 0).imp ?_
    intro a b hab x hx y hy
    rw [matchesOf_cell_eq hx, matchesOf_cell_eq hy]
    exact Or.inr ⟨rfl, hab⟩
  · refine (enumFrom_pairwise_fst sheet 0).imp ?_
    intro a b hab x hx y hy
    rw [List.mem_filterMap] at hx hy
    obtain ⟨ci, -, hci⟩ := hx
    obtain ⟨cj, -, hcj⟩ := hy
    rw [matchesOf_cell_eq hci, matchesOf_cell_eq hcj]
    exact Or.inl hab

/-! ### The clock string feeds only the description field -/

/-- An event with its description blanked. -/
def eraseDesc (e : Event) : Event :=
  { title := e.title, location := e.location, description := "",
    start_datetime := e.start_datetime, end_datetime := e.end_datetime,
    recurrence := e.recurrence }

theorem get_event_from_entry_eraseDesc (cfg : Config) (now1 now2 : String) (date : Date)
    (role : Cell) :
    (get_event_from_entry cfg now1 date role).map eraseDesc =
      (get_event_from_entry cfg now2 date role).map eraseDesc := by
  unfold get_event_from_entry
  cases lookupRole cfg role with
  | none => rfl
  | some ri =>
    dsimp only
    cases parseTime ri.start_time with
    | none => rfl
    | some st =>
      dsimp only
      cases parseTime ri.end_time with
      | none => rfl
      | some en => rfl

theorem processMatch_eraseDesc (cfg : Config) (now1 now2 : String) (sheet : Sheet)
    (rc : Nat × Nat) :
    (processMatch cfg now1 sheet rc).map eraseDesc =
      (processMatch cfg now2 sheet rc).map eraseDesc := by
  unfold processMatch
  cases resolveDate (fun r => cellAt sheet r rc.2) rc.1 rc.2 with
  | error e => rfl
  | ok x =>
    obtain ⟨date, date_row⟩ := x
    dsimp only
    cases cellAtLabel sheet rc.2 ((date_row : Int) - 1) with
    | error e => rfl
    | ok dow =>
      dsimp only
      by_cases hc : cellEqStr dow (weekdayName date) = true
      · simp only [hc, if_true]
        exact get_event_from_entry_eraseDesc cfg now1 now2 date (cellAt sheet rc.1 0)
      · simp only [hc]
        rfl

theorem runMatches_eraseDesc (cfg : Config) (now1 now2 : String) (sheet : Sheet)
    (ms : List (Nat × Nat)) :
    (runMatches cfg now1 sheet ms).map (List.map eraseDesc) =
      (runMatches cfg now2 sheet ms).map (List.map eraseDesc) := by
  induction ms with
  | nil => rfl
  | cons rc rest ih =>
    have hpm := processMatch_eraseDesc cfg now1 now2 sheet rc
    unfold runMatches
    cases h1 : processMatch cfg now1 sheet rc with
    | error e1 =>
      cases h2 : processMatch cfg now2 sheet rc with
      | error e2 =>
        rw [h1, h2] at hpm
        simp only [Except.map] at hpm
        injection hpm with hpm
        subst hpm
        rfl
      | ok ev2 =>
        rw [h1, h2] at hpm
        simp [Except.map] at hpm
    | ok ev1 =>
      cases h2 : processMatch cfg now2 sheet rc with
      | error e2 =>
        rw [h1, h2] at hpm
        simp [Except.map] at hpm
      | ok ev2 =>
        rw [h1, h2] at hpm
        simp only [Except.map] at hpm
        injection hpm with hpm
        cases hr1 : runMatches cfg now1 sheet rest with
        | error f1 =>
          cases hr2 : runMatches cfg now2 sheet rest with
          | error f2 =>
            rw [hr1, hr2] at ih
            simp only [Except.map] at ih
            injection ih with ih
            subst ih
            rfl
          | ok evs2 =>
            rw [hr1, hr2] at ih
            simp [Except.map] at ih
        | ok evs1 =>
          cases hr2 : runMatches cfg now2 sheet rest with
          | error f2 =>
            rw [hr1, hr2] at ih
            simp [Except.map] at ih
          | ok evs2 =>
            rw [hr1, hr2] at ih
            simp only [Except.map] at ih
            injection ih with ih
            simp only [Except.map, List.map_cons, hpm, ih]

theorem get_events_from_df_eraseDesc (cfg : Config) (now1 now2 : String)
    (grid : List (String × Sheet)) :
    (get_events_from_df cfg now1 grid).map (List.map eraseDesc) =
      (get_events_from_df cfg now2 grid).map (List.map eraseDesc) := by
  induction grid with
  | nil => rfl
  | cons p rest ih =>
    obtain ⟨nm, sheet⟩ := p
    have hrm := runMatches_eraseDesc cfg now1 now2 sheet (matchesOf cfg.aliases sheet)
    unfold get_events_from_df
    cases h1 : runMatches cfg now1 sheet (matchesOf cfg.aliases sheet) with
    | error e1 =>
      cases h2 : runMatches cfg now2 sheet (matchesOf cfg.aliases sheet) with
      | error e2 =>
        rw [h1, h2] at hrm
        simp only [Except.map] at hrm
        injection hrm with hrm
        subst hrm
        rfl
      | ok evs2 =>
        rw [h1, h2] at hrm
        simp [Except.map] at hrm
    | ok evs1 =>
      cases h2 : runMatches cfg now2 sheet (matchesOf cfg.aliases sheet) with
      | error e2 =>
        rw [h1, h2] at hrm
        simp [Except.map] at hrm
      | ok evs2 =>
        rw [h1, h2] at hrm
        simp only [Except.map] at hrm
        injection hrm with hrm
        cases hr1 : get_events_from_df cfg now1 rest with
        | error f1 =>
          cases hr2 : get_events_from_df cfg now2 rest with
          | error f2 =>
            rw [hr1, hr2] at ih
            simp only [Except.map] at ih
            injection ih with ih
            subst ih
            rfl
          | ok more2 =>
            rw [hr1, hr2] at ih
            simp [Except.map] at ih
        | ok more1 =>
          cases hr2 : get_events_from_df cfg now2 rest with
          | error f2 =>
            rw [hr1, hr2] at ih
            simp [Except.map] at ih
          | ok more2 =>
            rw [hr1, hr2] at ih
            simp only [Except.map] at ih
            injection ih with ih
            simp only [Except.map, List.map_append, hrm, ih]

theorem processEntry_eraseDesc (now1 now2 : String) (fuel : Nat) (e : RecEntry) :
    (processEntry now1 fuel e).map (Except.map eraseDesc) =
      (processEntry now2 fuel e).map (Except.map eraseDesc) := by
  unfold processEntry
  cases parseTime e.start_time with
  | none => rfl
  | some st =>
    dsimp only
    cases parseTime e.end_time with
    | none => rfl
    | some en =>
      dsimp only
      cases parseDate e.start_date with
      | none => rfl
      | some sd =>
        dsimp only
        cases findFirstDate e.days fuel sd with
        | none => rfl
        | some date =>
          dsimp only
          cases parseDate e.end_date with
          | none => rfl
          | some ed => rfl

theorem get_recurrence_events_eraseDesc (now1 now2 : String) (fuel : Nat)
    (entries : List RecEntry) :
    (get_recurrence_events now1 fuel entries).map (Except.map (List.map eraseDesc)) =
      (get_recurrence_events now2 fuel entries).map (Except.map (List.map eraseDesc)) := by
  induction entries with
  | nil => rfl
  | cons e rest ih =>
    have hpe := processEntry_eraseDesc now1 now2 fuel e
    unfold get_recurrence_events
    cases h1 : processEntry now1 fuel e with
    | none =>
      cases h2 : processEntry now2 fuel e with
      | none => rfl
      | some x2 =>
        rw [h1, h2] at hpe
        simp [Option.map] at hpe
    | some x1 =>
      cases h2 : processEntry now2 fuel e with
      | none =>
        rw [h1, h2] at hpe
        simp [Option.map] at hpe
      | some x2 =>
        rw [h1, h2] at hpe
        simp only [Option.map] at hpe
        injection hpe with hpe
        cases x1 with
        | error e1 =>
          cases x2 with
          | error e2 =>
            simp only [Except.map] at hpe
            injection hpe with hpe
            subst hpe
            rfl
          | ok ev2 => simp [Except.map] at hpe
        | ok ev1 =>
          cases x2 with
          | error e2 => simp [Except.map] at hpe
          | ok ev2 =>
            simp only [Except.map] at hpe
            injection hpe with hpe
            cases hr1 : get_recurrence_events now1 fuel rest with
            | none =>
              cases hr2 : get_recurrence_events now2 fuel rest with
              | none => rfl
              | some y2 =>
                rw [hr1, hr2] at ih
                simp [Option.map] at ih
            | some y1 =>
              cases hr2 : get_recurrence_events now2 fuel rest with
              | none =>
                rw [hr1, hr2] at ih
                simp [Option.map] at ih
              | some y2 =>
                rw [hr1, hr2] at ih
                simp only [Option.map] at ih
                injection ih with ih
                cases y1 with
                | error f1 =>
                  cases y2 with
                  | error f2 =>
                    simp only [Except.map] at ih
                    injection ih with ih
                    subst ih
                    rfl
                  | ok evs2 => simp [Except.map] at ih
                | ok evs1 =>
                  cases y2 with
                  | error f2 => simp [Except.map] at ih
                  | ok evs2 =>
                    simp only [Except.map] at ih
                    injection ih with ih
                    simp only [Option.map, Except.map, List.map_cons, hpe, ih]

theorem main_events_eraseDesc (cfg : Config) (now1 now2 : String)
    (grid : List (String × Sheet)) (fuel : Nat) :
    (main_events cfg now1 grid fuel).map (Except.map (List.map eraseDesc)) =
      (main_events cfg now2 grid fuel).map (Except.map (List.map eraseDesc)) := by
  have hdf := get_events_from_df_eraseDesc cfg now1 now2 grid
  have hre := get_recurrence_events_eraseDesc now1 now2 fuel cfg.recurring_schedules
  unfold main_events
  cases h1 : get_events_from_df cfg now1 grid with
  | error e1 =>
    cases h2 : get_events_from_df cfg now2 grid with
    | error e2 =>
      rw [h1, h2] at hdf
      simp only [Except.map] at hdf
      injection hdf with hdf
      subst hdf
      rfl
    | ok evs2 =>
      rw [h1, h2] at hdf
      simp [Except.map] at hdf
  | ok evs1 =>
    cases h2 : get_events_from_df cfg now2 grid with
    | error e2 =>
      rw [h1, h2] at hdf
      simp [Except.map] at hdf
    | ok evs2 =>
      rw [h1, h2] at hdf
      simp only [Except.map] at hdf
      injection hdf with hdf
      cases hr1 : get_recurrence_events now1 fuel cfg.recurring_schedules with
      | none =>
        cases hr2 : get_recurrence_events now2 fuel cfg.recurring_schedules with
        | none => rfl
        | some y2 =>
          rw [hr1, hr2] at hre
          simp [Option.map] at hre
      | some y1 =>
        cases hr2 : get_recurrence_events now2 fuel cfg.recurring_schedules with
        | none =>
          rw [hr1, hr2] at hre
          simp [Option.map] at hre
        | some y2 =>
          rw [hr1, hr2] at hre
          simp only [Option.map] at hre
          injection hre with hre
          cases y1 with
          | error f1 =>
            cases y2 with
            | error f2 =>
              simp only [Except.map] at hre
              injection hre with hre
              subst hre
              rfl
            | ok revs2 => simp [Except.map] at hre
          | ok revs1 =>
            cases y2 with
            | error f2 => simp [Except.map] at hre
            | ok revs2 =>
              simp only [Except.map] at hre
              injection hre with hre
              simp only [Option.map, Except.map, List.map_append, hdf, hre]

/-! ### Concrete example inputs -/

/-- An ordinary role: 9 AM to 5 PM. -/
def roleEx : RoleInfo :=
  { title := "Shift", location := "Hall", start_time := "09:00 AM", end_time := "05:00 PM" }

/-- The recurring entry from the spec's examples: Monday/Wednesday evenings
starting Monday 2022-05-02, until 2022-12-31. -/
def recEx : RecEntry :=
  { title := "Yoga", location := "Gym", days := ["Monday", "Wednesday"],
    start_time := "06:00 PM", end_time := "07:00 PM",
    start_date := "05/02/2022", end_date := "12/31/2022" }

def cfgEx : Config :=
  { aliases := ["S"], role_info := [("Bob", roleEx)], recurring_schedules := [recEx] }

/-- A well-formed sheet: weekday label above the date, date above the match. -/
def sheetEx : Sheet :=
  [[Cell.blank, Cell.str "Wednesday"],
   [Cell.blank, Cell.str "05/25/2022"],
   [Cell.str "Bob", Cell.str "S"]]

/-- The grid-derived event of cfgEx over sheetEx at clock string "NOW". -/
def evEx : Event :=
  { title := "Shift", location := "Hall",
    description := "Last updated by Lalitha on NOW\n",
    start_datetime := "2022-05-25T09:00:00", end_datetime := "2022-05-25T17:00:00",
    recurrence := none }

/-- The recurrence-derived event of recEx at clock string "NOW". -/
def recEvEx : Event :=
  { title := "Yoga", location := "Gym",
    description := "Last updated by Lalitha on NOW\n",
    start_datetime := "2022-05-02T18:00:00", end_datetime := "2022-05-02T19:00:00",
    recurrence := some "RRULE:FREQ=WEEKLY;BYDAY=MO,WE;UNTIL=20221231" }

def outEx : List Event := [evEx, recEvEx]

/-- A role whose start time is after its end time. -/
def roleBad : RoleInfo :=
  { title := "Shift", location := "Hall", start_time := "05:00 PM", end_time := "09:00 AM" }

def cfgBad : Config :=
  { aliases := ["S"], role_info := [("Bob", roleBad)], recurring_schedules := [] }

/-- The event cfgBad produces over sheetEx: start after end, same date. -/
def evBad : Event :=
  { title := "Shift", location := "Hall",
    description := "Last updated by Lalitha on NOW\n",
    start_datetime := "2022-05-25T17:00:00", end_datetime := "2022-05-25T09:00:00",
    recurrence := none }

/-- date 05/25/2022 (a Wednesday) sits under the label "Tuesday". -/
def sheetMis1 : Sheet :=
  [[Cell.blank, Cell.str "Tuesday"],
   [Cell.blank, Cell.str "05/25/2022"],
   [Cell.str "Bob", Cell.str "S"]]

/-- date 05/27/2022 (a Friday) sits under the label "Monday". -/
def sheetMis2 : Sheet :=
  [[Cell.blank, Cell.str "Monday"],
   [Cell.blank, Cell.str "05/27/2022"],
   [Cell.str "Bob", Cell.str "S"]]

/-- The resolved date sits in row 0, so no weekday label fits above it. -/
def sheetRow0 : Sheet :=
  [[Cell.blank, Cell.str "05/25/2022"],
   [Cell.str "Bob", Cell.str "S"]]

/-! ### The claims -/

/-- Claim C1: for every matched cell, the resolver scans upward from the row
above the match toward row 0, skipping blank cells and non-blank cells that do
not parse as "MM/DD/YYYY" dates, and returns the first successfully parsed
date with its row index; if every row above is exhausted it fails with the
DateNotFound error carrying the match coordinates.  Stated as: resolveDate
coincides with the spec-worded scan specDateScan on every column and start
row. -/
theorem claim_C1 (get : Nat → Cell) (row_i col_i : Nat) :
    resolveDate get row_i col_i =
      (match specDateScan get row_i with
       | some x => Except.ok x
       | none => Except.error (Err.dateNotFound row_i col_i)) :=
  resolveDate_eq_specDateScan get row_i col_i

/-- Claim C2 (the part of the claim the code satisfies, plus the divergence):
the first-date loop started on any valid date terminates within 7 iterations
whenever days holds at least one genuine weekday name; but on an empty days
list the loop never exits — findFirstDate returns none for EVERY fuel — where
the claim (with the spec) demands an InvalidRecurrence failure.  The code has
no InvalidRecurrence at all: an empty days set loops forever. -/
theorem claim_C2 :
    (∀ (fuel : Nat) (d : Date), findFirstDate [] fuel d = none) ∧
    (∀ (days : List String) (d : Date) (w : String), validDate d → w ∈ days →
      w ∈ weekNames → (findFirstDate days 6 d).isSome = true) := by
  constructor
  · exact findFirstDate_nil
  · intro days d w hv hwd hwn
    apply findFirstDate_isSome_of_exists
    obtain ⟨⟨i, hilen⟩, hgi⟩ := List.mem_iff_get.mp hwn
    have hi7 : i < 7 := hilen
    obtain ⟨k, hk, hwk⟩ := weekdayName_iterate_eq d hv i hi7
    refine ⟨k, hk, ?_⟩
    rw [hwk]
    have : weekNames.getD i "" = w := by
      rw [List.getD_eq_getElem _ _ hilen]
      simpa using hgi
    rw [this]
    exact hwd

/-- Witness for claim C2's second conjunct at the spec's own example:
start Monday 2022-05-02 with days {Wednesday, Friday}. -/
theorem claim_C2_witness :
    validDate ⟨2022, 5, 2⟩ ∧ "Wednesday" ∈ ["Wednesday", "Friday"] ∧
      "Wednesday" ∈ weekNames ∧
      (findFirstDate ["Wednesday", "Friday"] 6 ⟨2022, 5, 2⟩).isSome = true :=
  ⟨by decide, by decide, by decide,
    claim_C2.2 ["Wednesday", "Friday"] ⟨2022, 5, 2⟩ "Wednesday" (by decide) (by decide)
      (by decide)⟩

/-- Claim C4: for every recurring entry with non-empty days that yields an
event, the recurrence rule is exactly
RRULE:FREQ=WEEKLY;BYDAY=D1,D2,...;UNTIL=YYYYMMDD, with the BYDAY codes the
two-letter uppercased prefixes of the configured day names in config order
(x[:2].upper(), comma-joined) and UNTIL the entry's end_date reparsed from
"MM/DD/YYYY" and reformatted compactly. -/
theorem claim_C4 (now : String) (fuel : Nat) (e : RecEntry) (ev : Event)
    (_hne : e.days ≠ [])
    (h : processEntry now fuel e = some (Except.ok ev)) :
    ∃ ed, parseDate e.end_date = some ed ∧
      ev.recurrence = some ("RRULE:FREQ=WEEKLY;BYDAY=" ++
        joinComma (e.days.map take2upper) ++ ";UNTIL=" ++
        (pad4 ed.year ++ pad2 ed.month ++ pad2 ed.day)) := by
  obtain ⟨st, en, sd, date, ed, _, _, _, _, hed, rfl⟩ := processEntry_ok h
  exact ⟨ed, hed, rfl⟩

/-- Witness for claim C4 at the spec's example entry (Monday/Wednesday until
12/31/2022): the rule comes out as BYDAY=MO,WE;UNTIL=20221231. -/
theorem claim_C4_witness :
    (∃ ed, parseDate recEx.end_date = some ed ∧
      recEvEx.recurrence = some ("RRULE:FREQ=WEEKLY;BYDAY=" ++
        joinComma (recEx.days.map take2upper) ++ ";UNTIL=" ++
        (pad4 ed.year ++ pad2 ed.month ++ pad2 ed.day))) ∧
    recEvEx.recurrence = some "RRULE:FREQ=WEEKLY;BYDAY=MO,WE;UNTIL=20221231" :=
  ⟨claim_C4 "NOW" 7 recEx recEvEx (by decide) (by decide), by decide⟩

/-- Claim C5, amended: the validator reads the cell one row above the date
cell in the same column and passes exactly when that cell's text equals the
date's full English weekday name; on any other cell value it fails with the
AssertionError — but that error carries ONLY the match coordinates, not the
expected and found weekday strings the claim promises. -/
theorem claim_C5_amended (cfg : Config) (now : String) (sheet : Sheet) (r c : Nat)
    (date : Date) (drow : Nat) (dowCell : Cell)
    (hres : resolveDate (fun i => cellAt sheet i c) r c = Except.ok (date, drow))
    (hlab : cellAtLabel sheet c ((drow : Int) - 1) = Except.ok dowCell) :
    processMatch cfg now sheet (r, c) =
      (if cellEqStr dowCell (weekdayName date) then
        get_event_from_entry cfg now date (cellAt sheet r 0)
      else Except.error (Err.dayMismatch r c)) := by
  unfold processMatch
  dsimp only
  rw [hres]
  dsimp only
  rw [hlab]

/-- Witness for claim C5's amended statement: over sheetMis1 the label
"Tuesday" does not equal Wednesday, so the match errs with the
coordinates-only mismatch error. -/
theorem claim_C5_witness :
    processMatch cfgEx "NOW" sheetMis1 (2, 1) =
      (if cellEqStr (Cell.str "Tuesday") (weekdayName ⟨2022, 5, 25⟩) then
        get_event_from_entry cfgEx "NOW" ⟨2022, 5, 25⟩ (cellAt sheetMis1 2 0)
      else Except.error (Err.dayMismatch 2 1)) :=
  claim_C5_amended cfgEx "NOW" sheetMis1 2 1 ⟨2022, 5, 25⟩ 1 (Cell.str "Tuesday")
    (by decide) (by decide)

/-- Counterexample to claim C5 as stated: two mismatches whose expected
weekdays (Wednesday vs Friday) and found labels (Tuesday vs Monday) differ
produce the very same error value, so the error cannot carry the expected and
found weekday strings — the AssertionError message holds the coordinates
alone. -/
theorem claim_C5_counterexample :
    processMatch cfgEx "NOW" sheetMis1 (2, 1) = Except.error (Err.dayMismatch 2 1) ∧
    processMatch cfgEx "NOW" sheetMis2 (2, 1) = Except.error (Err.dayMismatch 2 1) ∧
    weekdayName ⟨2022, 5, 25⟩ = "Wednesday" ∧ weekdayName ⟨2022, 5, 27⟩ = "Friday" ∧
    cellAt sheetMis1 0 1 = Cell.str "Tuesday" ∧ cellAt sheetMis2 0 1 = Cell.str "Monday" :=
  ⟨by decide, by decide, by decide, by decide, by decide, by decide⟩

/-- Claim C9: when the first parseable date above a match sits in row 0, the
validator's read of df[col][-1] raises the label KeyError — an indexing
error, not the day-mismatch assertion — so such a match can never pass
validation. -/
theorem claim_C9 (cfg : Config) (now : String) (sheet : Sheet) (r c : Nat) (d : Date)
    (hres : resolveDate (fun i => cellAt sheet i c) r c = Except.ok (d, 0)) :
    processMatch cfg now sheet (r, c) = Except.error (Err.rowKeyError c (-1)) ∧
    ∀ r' c', Err.rowKeyError c (-1) ≠ Err.dayMismatch r' c' := by
  constructor
  · unfold processMatch
    dsimp only
    rw [hres]
    dsimp only
    have hlab : cellAtLabel sheet c (((0 : Nat) : Int) - 1) =
        Except.error (Err.rowKeyError c (-1)) := by
      unfold cellAtLabel
      rw [if_neg]
      · norm_num
      · intro hcon
        have := hcon.1
        omega
    rw [hlab]
  · intro r' c' hcon
    cases hcon

/-- Witness for claim C9: a date in row 0 right above the matched cell. -/
theorem claim_C9_witness :
    resolveDate (fun i => cellAt sheetRow0 i 1) 1 1 = Except.ok (⟨2022, 5, 25⟩, 0) ∧
    processMatch cfgEx "NOW" sheetRow0 (1, 1) = Except.error (Err.rowKeyError 1 (-1)) :=
  ⟨by decide, (claim_C9 cfgEx "NOW" sheetRow0 1 1 ⟨2022, 5, 25⟩ (by decide)).1⟩

/-! ### Remaining claims -/

theorem forall2_mem_right {α β : Type} {R : α → β → Prop} {l1 : List α} {l2 : List β}
    (h : List.Forall₂ R l1 l2) {b : β} (hb : b ∈ l2) : ∃ a ∈ l1, R a b := by
  induction h with
  | nil => cases hb
  | cons hR hrest ih =>
    rcases List.mem_cons.mp hb with rfl | hb'
    · exact ⟨_, List.mem_cons_self _ _, hR⟩
    · obtain ⟨a, ha, hab⟩ := ih hb'
      exact ⟨a, List.mem_cons_of_mem _ ha, hab⟩

theorem forall2_mem_left {α β : Type} {R : α → β → Prop} {l1 : List α} {l2 : List β}
    (h : List.Forall₂ R l1 l2) {a : α} (ha : a ∈ l1) : ∃ b ∈ l2, R a b := by
  induction h with
  | nil => cases ha
  | cons hR hrest ih =>
    rcases List.mem_cons.mp ha with rfl | ha'
    · exact ⟨_, List.mem_cons_self _ _, hR⟩
    · obtain ⟨b, hb, hab⟩ := ih ha'
      exact ⟨b, List.mem_cons_of_mem _ hb, hab⟩

/-- Executable check that two "HH:MM AM/PM" strings, when both parse, are in
strictly increasing time-of-day order. -/
def timeOrderOk (a b : String) : Bool :=
  match parseTime a, parseTime b with
  | some st, some en => decide (st.hour * 60 + st.minute < en.hour * 60 + en.minute)
  | _, _ => true

/-- A role whose title is non-empty and whose configured times are in order. -/
def RoleOk (ri : RoleInfo) : Prop :=
  ri.title ≠ "" ∧ timeOrderOk ri.start_time ri.end_time = true

/-- A recurring entry whose title is non-empty and whose times are in order. -/
def EntryOk (e : RecEntry) : Prop :=
  e.title ≠ "" ∧ timeOrderOk e.start_time e.end_time = true

instance (ri : RoleInfo) : Decidable (RoleOk ri) := by
  unfold RoleOk; infer_instance

instance (e : RecEntry) : Decidable (EntryOk e) := by
  unfold EntryOk; infer_instance

theorem timeOrderOk_lt {a b : String} {st en : Time} (h : timeOrderOk a b = true)
    (hst : parseTime a = some st) (hen : parseTime b = some en) :
    st.hour * 60 + st.minute < en.hour * 60 + en.minute := by
  unfold timeOrderOk at h
  rw [hst, hen] at h
  simpa using h

/-- Claim C3, amended: the claimed invariant — start_datetime strictly before
end_datetime and a non-empty title on every emitted descriptor — holds
provided the config obeys the discipline the code itself never checks: every
role and every recurring entry has a non-empty title and a start time that
parses strictly before its end time.  Without that discipline the code
happily emits out-of-order descriptors (see the counterexample). -/
theorem claim_C3_amended (cfg : Config) (now : String) (grid : List (String × Sheet))
    (fuel : Nat) (out : List Event)
    (hr : ∀ p ∈ cfg.role_info, RoleOk p.2)
    (he : ∀ e ∈ cfg.recurring_schedules, EntryOk e)
    (hrun : main_events cfg now grid fuel = some (Except.ok out)) :
    ∀ ev ∈ out, ev.start_datetime < ev.end_datetime ∧ ev.title ≠ "" := by
  obtain ⟨gevs, revs, hg, hrec, rfl⟩ := main_events_ok hrun
  intro ev hev
  rcases List.mem_append.mp hev with hmem | hmem
  · obtain ⟨q, hq, hpm⟩ := forall2_mem_right (get_events_from_df_forall2 hg) hmem
    obtain ⟨date, hge⟩ := processMatch_ok hpm
    obtain ⟨s, ri, st, en, hlk, hst, hen, rfl⟩ := get_event_from_entry_ok hge
    obtain ⟨htitle, hord⟩ := hr _ (lookup_mem hlk)
    have hb1 := parseTime_bounds hst
    have hb2 := parseTime_bounds hen
    exact ⟨fmtDateTime_lt date st en hb1.1 hb2.1 hb1.2.1 hb2.2.1
      (timeOrderOk_lt hord hst hen), htitle⟩
  · obtain ⟨e, he', hpe⟩ := forall2_mem_right (get_recurrence_events_forall2 hrec) hmem
    obtain ⟨st, en, sd, date, ed, hst, hen, _, _, _, rfl⟩ := processEntry_ok hpe
    obtain ⟨htitle, hord⟩ := he _ he'
    have hb1 := parseTime_bounds hst
    have hb2 := parseTime_bounds hen
    exact ⟨fmtDateTime_lt date st en hb1.1 hb2.1 hb1.2.1 hb2.2.1
      (timeOrderOk_lt hord hst hen), htitle⟩

/-- Witness for claim C3's amended statement at the example config. -/
theorem claim_C3_witness :
    (evEx.start_datetime < evEx.end_datetime ∧ evEx.title ≠ "") ∧
    (recEvEx.start_datetime < recEvEx.end_datetime ∧ recEvEx.title ≠ "") :=
  ⟨claim_C3_amended cfgEx "NOW" [("w", sheetEx)] 7 outEx (by decide) (by decide)
      (by decide) evEx (by decide),
    claim_C3_amended cfgEx "NOW" [("w", sheetEx)] 7 outEx (by decide) (by decide)
      (by decide) recEvEx (by decide)⟩

/-- Counterexample to claim C3 as stated: with a role configured 05:00 PM to
09:00 AM the run succeeds yet the emitted descriptor has its start strictly
AFTER its end — the code never enforces the ordering. -/
theorem claim_C3_counterexample :
    main_events cfgBad "NOW" [("w", sheetEx)] 7 = some (Except.ok [evBad]) ∧
    ¬ evBad.start_datetime < evBad.end_datetime := by
  constructor
  · decide
  · show ¬ ("2022-05-25T17:00:00" : String) < "2022-05-25T09:00:00"
    rw [String.lt_iff_toList_lt]
    decide

/-- Claim C6, amended: the run is a pure function of the Grid, the config AND
the rendered clock string; with the description field erased the output is
independent of the clock, so two runs are byte-identical exactly when their
clock strings agree — but the description embeds pd.Timestamp.now(), so runs
at different times differ (see the counterexample). -/
theorem claim_C6_amended (cfg : Config) (now1 now2 : String)
    (grid : List (String × Sheet)) (fuel : Nat) :
    (main_events cfg now1 grid fuel).map (Except.map (List.map eraseDesc)) =
      (main_events cfg now2 grid fuel).map (Except.map (List.map eraseDesc)) :=
  main_events_eraseDesc cfg now1 now2 grid fuel

/-- Counterexample to claim C6 as stated: the same Grid and config scanned at
two clock readings one minute apart give different byte sequences — the
description is not a pure function of Grid and config. -/
theorem claim_C6_counterexample :
    get_events_from_df cfgEx "05/28/2021 at 09:00 AM" [("w", sheetEx)] ≠
      get_events_from_df cfgEx "05/28/2021 at 09:01 AM" [("w", sheetEx)] := by
  decide

/-- Claim C7: a matched cell whose resolution and weekday validation succeed
but whose role name (column 0 of the matching row) is absent from role_info
makes event assembly fail with the UnknownRole error, and a scan containing
that match can never return a list of descriptors. -/
theorem claim_C7 (cfg : Config) (now : String) (sheet : Sheet) (r c : Nat)
    (date : Date) (drow : Nat) (dowCell : Cell)
    (hres : resolveDate (fun i => cellAt sheet i c) r c = Except.ok (date, drow))
    (hlab : cellAtLabel sheet c ((drow : Int) - 1) = Except.ok dowCell)
    (hdow : cellEqStr dowCell (weekdayName date) = true)
    (hrole : lookupRole cfg (cellAt sheet r 0) = none) :
    processMatch cfg now sheet (r, c) =
      Except.error (Err.unknownRole (roleRepr (cellAt sheet r 0))) ∧
    ∀ ms : List (Nat × Nat), (r, c) ∈ ms →
      ∀ evs, runMatches cfg now sheet ms ≠ Except.ok evs := by
  have hpm : processMatch cfg now sheet (r, c) =
      Except.error (Err.unknownRole (roleRepr (cellAt sheet r 0))) := by
    unfold processMatch
    dsimp only
    rw [hres]
    dsimp only
    rw [hlab]
    dsimp only
    rw [if_pos hdow]
    unfold get_event_from_entry
    rw [hrole]
  refine ⟨hpm, ?_⟩
  intro ms hmem evs hok
  obtain ⟨e, -, hre⟩ := forall2_mem_left (runMatches_forall2 hok) hmem
  rw [hpm] at hre
  cases hre

/-- Witness for claim C7: the role cell "Alice" is not in role_info. -/
theorem claim_C7_witness :
    processMatch cfgEx "NOW"
        [[Cell.blank, Cell.str "Wednesday"],
         [Cell.blank, Cell.str "05/25/2022"],
         [Cell.str "Alice", Cell.str "S"]] (2, 1) =
      Except.error (Err.unknownRole "Alice") ∧
    ∀ evs, runMatches cfgEx "NOW"
        [[Cell.blank, Cell.str "Wednesday"],
         [Cell.blank, Cell.str "05/25/2022"],
         [Cell.str "Alice", Cell.str "S"]] [(2, 1)] ≠ Except.ok evs :=
  have h := claim_C7 cfgEx "NOW"
    [[Cell.blank, Cell.str "Wednesday"],
     [Cell.blank, Cell.str "05/25/2022"],
     [Cell.str "Alice", Cell.str "S"]] 2 1 ⟨2022, 5, 25⟩ 1 (Cell.str "Wednesday")
    (by decide) (by decide) (by decide) (by decide)
  ⟨h.1, fun evs => h.2 [(2, 1)] (by decide) evs⟩

/-- Claim C8: the combined output is the grid-derived events followed by the
recurrence-derived events; the grid events correspond one-to-one, in order, to
the matched cells taken sheet by sheet, each sheet's matches sorted row-major
then column-major; and the recurrence events correspond one-to-one, in order,
to the config's recurring_schedules list. -/
theorem claim_C8 (cfg : Config) (now : String) (grid : List (String × Sheet))
    (fuel : Nat) (out gevs : List Event) (revs : List Event)
    (hg : get_events_from_df cfg now grid = Except.ok gevs)
    (hrec : get_recurrence_events now fuel cfg.recurring_schedules = some (Except.ok revs))
    (hrun : main_events cfg now grid fuel = some (Except.ok out)) :
    out = gevs ++ revs ∧
    List.Forall₂ (fun q e => processMatch cfg now q.1 q.2 = Except.ok e)
      (allMatches cfg grid) gevs ∧
    List.Forall₂ (fun en e => processEntry now fuel en = some (Except.ok e))
      cfg.recurring_schedules revs ∧
    ∀ p ∈ grid, (matchesOf cfg.aliases p.2).Pairwise rowMajorLt := by
  refine ⟨?_, get_events_from_df_forall2 hg, get_recurrence_events_forall2 hrec,
    fun p _ => matchesOf_pairwise cfg.aliases p.2⟩
  unfold main_events at hrun
  rw [hg] at hrun
  dsimp only at hrun
  rw [hrec] at hrun
  dsimp only at hrun
  injection hrun with hrun
  injection hrun with hrun
  exact hrun.symm

/-- Witness for claim C8 at the example run: one grid event, then the one
recurrence event, with the single sheet's single match sorted trivially. -/
theorem claim_C8_witness :
    outEx = [evEx] ++ [recEvEx] ∧
    List.Forall₂ (fun q e => processMatch cfgEx "NOW" q.1 q.2 = Except.ok e)
      (allMatches cfgEx [("w", sheetEx)]) [evEx] ∧
    List.Forall₂ (fun en e => processEntry "NOW" 7 en = some (Except.ok e))
      cfgEx.recurring_schedules [recEvEx] ∧
    (matchesOf cfgEx.aliases sheetEx).Pairwise rowMajorLt :=
  have h := claim_C8 cfgEx "NOW" [("w", sheetEx)] 7 outEx [evEx] [recEvEx]
    (by decide) (by decide) (by decide)
  ⟨h.1, h.2.1, h.2.2.1, h.2.2.2 ("w", sheetEx) (by simp)⟩

/-- Claim C10: in every emitted descriptor the start and end datetimes carry
the same leading calendar-date component (the first 10 characters,
"YYYY-MM-DD"), because both combine the one resolved date with the two
times-of-day — no event ever spans into the next day. -/
theorem claim_C10 (cfg : Config) (now : String) (grid : List (String × Sheet))
    (fuel : Nat) (out : List Event)
    (hrun : main_events cfg now grid fuel = some (Except.ok out)) :
    ∀ ev ∈ out, ev.start_datetime.data.take 10 = ev.end_datetime.data.take 10 := by
  obtain ⟨gevs, revs, hg, hrec, rfl⟩ := main_events_ok hrun
  intro ev hev
  rcases List.mem_append.mp hev with hmem | hmem
  · obtain ⟨q, hq, hpm⟩ := forall2_mem_right (get_events_from_df_forall2 hg) hmem
    obtain ⟨date, hge⟩ := processMatch_ok hpm
    obtain ⟨s, ri, st, en, -, -, -, rfl⟩ := get_event_from_entry_ok hge
    show (fmtDateTime date st).data.take 10 = (fmtDateTime date en).data.take 10
    rw [fmtDateTime_data_take, fmtDateTime_data_take]
  · obtain ⟨e, he', hpe⟩ := forall2_mem_right (get_recurrence_events_forall2 hrec) hmem
    obtain ⟨st, en, sd, date, ed, -, -, -, -, -, rfl⟩ := processEntry_ok hpe
    show (fmtDateTime date st).data.take 10 = (fmtDateTime date en).data.take 10
    rw [fmtDateTime_data_take, fmtDateTime_data_take]

/-- Witness for claim C10 at the example run's two events. -/
theorem claim_C10_witness :
    evEx.start_datetime.data.take 10 = evEx.end_datetime.data.take 10 ∧
    recEvEx.start_datetime.data.take 10 = recEvEx.end_datetime.data.take 10 :=
  ⟨claim_C10 cfgEx "NOW" [("w", sheetEx)] 7 outEx (by decide) evEx (by decide),
    claim_C10 cfgEx "NOW" [("w", sheetEx)] 7 outEx (by decide) recEvEx (by decide)⟩

end Lalitha
